import Mathlib

/-!
Shallow embedding of `clpfd.py`, a symbolic modeling front-end for
constraint problems (Expression trees over Variables and integer
literals, a Variables numpy-array container, and a Solver that
registers constraints and lowers them to the pulp backend).

Python exceptions are modelled by the `PyError` type; a function that
can raise returns `Except PyError _`, and an in-place mutating method
that can raise mid-way returns the (possibly partially updated) state
together with an optional raised error.
-/

/-- Python exception classes that the embedded code can raise. -/
inductive PyError where
  | assertionError (msg : String)
  | valueError (msg : String)
  | attributeError (msg : String)
  | typeError (msg : String)
deriving DecidableEq, Repr

/-- Embeds `DomainRange.__init__`: `min` is the inclusive lower bound and
`max` the exclusive upper bound, each either an integer or Python `None`
(modelled as `Option Int`). The abstract base class `Domain` carries no
data of its own and is not modelled separately. -/
structure DomainRange where
  min : Option Int
  max : Option Int
deriving DecidableEq, Repr

/-- The default `DomainRange()`: both bounds are `None` (unbounded). -/
def DomainRange.unbounded : DomainRange := { min := none, max := none }

/-- A Python `range(start, stop, step)` object. Python itself rejects
`step = 0` at range-construction time; the embedding keeps `step`
unrestricted since `fromrange` only compares it with 1. -/
structure PyRange where
  start : Int
  stop : Int
  step : Int
deriving DecidableEq, Repr

/-- Message of the assert in `DomainRange.fromrange` for a non-unit step. -/
def sparseRangeMsg : String := "Sparse ranges not implemented yet"

/-- Embeds `DomainRange.fromrange`: the first assert (`isinstance(r, range)`)
is discharged by the argument type; the second assert rejects any step
other than 1 with an `AssertionError`; otherwise the half-open bounds of
the range become the bounds of the returned `DomainRange`. -/
def DomainRange.fromrange (r : PyRange) : Except PyError DomainRange :=
  if r.step = 1 then
    .ok { min := some r.start, max := some r.stop }
  else
    .error (.assertionError sparseRangeMsg)

/-- Embeds the `Expression` tree. `Expression.values` is a tuple whose
entries are each either an integer (`Sum.inl`, covering Python `int` and
`np.integer`) or a sub-`Expression` (`Sum.inr`). A `Variable` (the
`Expression` subclass with `op = None` and no operands) is the `var`
constructor; its `id` field models Python object identity (two `Variable`
objects are the same object exactly when their allocation ids agree),
`name` and `domain` are its attributes. -/
inductive Expr where
  | var (id : Nat) (name : String) (domain : DomainRange)
  | node (op : String) (values : List (Int ⊕ Expr))

/-- A Python value passed as an operand to an `Expression` operator:
an integer (`int` or `np.integer`), an `Expression`, or any other
object (carrying the rendering of its type for the error message). -/
inductive PyVal where
  | vint (n : Int)
  | vexpr (e : Expr)
  | other (descr : String)

/-- Conversion of a valid operand into a `values` entry; `none` for an
operand that fails the isinstance check of `Expression.__init__`. -/
def PyVal.toOperand : PyVal → Option (Int ⊕ Expr)
  | .vint n => some (.inl n)
  | .vexpr e => some (.inr e)
  | .other _ => none

/-- Message of the operand assert in `Expression.__init__` (Python appends
the offending operand type after "Got: "). -/
def badOperandMsg : String := "Can only build expressions out of expressions or integers. Got: "

/-- Embeds the validation loop of `Expression.__init__`: operands are
checked in order and the first one that is neither an `Expression` nor an
integer raises an `AssertionError` naming its type. -/
def checkOperands : List PyVal → Option PyError
  | [] => none
  | .other d :: _ => some (.assertionError (badOperandMsg ++ d))
  | .vint _ :: vs => checkOperands vs
  | .vexpr _ :: vs => checkOperands vs

/-- Embeds `Expression.__init__` (`Expression(op, *values)`): the operands
are validated at construction time and the node is built from them. (In
Python the attributes are assigned before the asserts run, but a raising
constructor never hands the object to the caller, so the observable
behaviour is validate-then-build.) -/
def mkExpression (op : String) (values : List PyVal) : Except PyError Expr :=
  match checkOperands values with
  | some e => .error e
  | none => .ok (.node op (values.filterMap PyVal.toOperand))

/-- Embeds `Expression.__add__`: `self + value` builds `Expression('+', self, value)`. -/
def Expression.addOp (e : Expr) (v : PyVal) : Except PyError Expr :=
  mkExpression "+" [.vexpr e, v]

/-- Embeds `Expression.__radd__`: `value + self` (reflected, e.g. an integer
left operand) builds `Expression('+', value, self)`. -/
def Expression.raddOp (e : Expr) (v : PyVal) : Except PyError Expr :=
  mkExpression "+" [v, .vexpr e]

/-- Embeds `Expression.__eq__`: `self == value` builds `Expression('=', self, value)`
instead of comparing. -/
def Expression.eqOp (e : Expr) (v : PyVal) : Except PyError Expr :=
  mkExpression "=" [.vexpr e, v]

mutual
/-- Embeds `Expression.variables`: a `Variable` returns the singleton list
of itself; any other node concatenates, left to right, the `variables()`
of those operands that are themselves Expressions (integer operands are
skipped by the isinstance filter). -/
def Expr.variables : Expr → List Expr
  | .var i n d => [.var i n d]
  | .node _ vs => varsOfOperands vs

/-- The list comprehension
`sum([v.variables() for v in self.values if isinstance(v, Expression)], [])`. -/
def varsOfOperands : List (Int ⊕ Expr) → List Expr
  | [] => []
  | .inl _ :: rest => varsOfOperands rest
  | .inr e :: rest => e.variables ++ varsOfOperands rest
end

mutual
/-- Embeds stringification. `Variable.__str__` returns the name;
`Expression.__str__` renders `str(values[0]) + " " + op + " " + str(values[1])`,
which would raise an `IndexError` on a node with fewer than two operands
(hence `Option`; extra operands past the second are ignored, as in the
source). -/
def Expr.strOpt : Expr → Option String
  | .var _ n _ => some n
  | .node op (a :: b :: _) =>
      match operandStr a, operandStr b with
      | some sa, some sb => some (sa ++ " " ++ op ++ " " ++ sb)
      | _, _ => none
  | .node _ _ => none

/-- `str()` of a `values` entry: Python renders an integer in decimal and
an `Expression` through its `__str__`. -/
def operandStr : Int ⊕ Expr → Option String
  | .inl n => some (toString n)
  | .inr e => e.strOpt
end

/-- The name attribute of a `Variable` leaf (only `var` nodes carry one;
the default is never consulted because only `variables()` results, which
are all `var` nodes, are queried). -/
def Expr.nameOf : Expr → String
  | .var _ n _ => n
  | .node _ _ => ""

/-- Python `is` between two registered variables: object identity, i.e.
equality of allocation ids. (Only `var` nodes ever reach the identity
check in `Solver.add_constraint`.) -/
def sameObject : Expr → Expr → Bool
  | .var i _ _, .var j _ _ => i == j
  | _, _ => false

/-- Renders a natural number in decimal, as Python's `"%d"` format does
(same digit-by-digit algorithm as the interpreter's own numeral
printing, written with explicit fuel so that it computes by reduction;
`n + 1` units of fuel always suffice since `n / 10 < n` for `n ≥ 10`). -/
def toDecimalAux : Nat → Nat → List Char
  | 0, _ => []
  | fuel + 1, n =>
      if n < 10 then [Nat.digitChar n]
      else toDecimalAux fuel (n / 10) ++ [Nat.digitChar (n % 10)]

/-- The decimal rendering of `n` (what `"%d" % n` produces). -/
def decimalRepr (n : Nat) : String := ⟨toDecimalAux (n + 1) n⟩

/-- Embeds `Variable.new_name`: the class-wide counter `Variable._varidx`
is threaded explicitly; the call returns `"var_%d" % _varidx` and the
incremented counter. -/
def Variable.new_name (varidx : Nat) : String × Nat :=
  ("var_" ++ decimalRepr varidx, varidx + 1)

/-- A sequence of `k` successive `Variable.new_name` calls starting from
counter value `c`: the list of generated names and the final counter. -/
def genNames (c : Nat) : Nat → List String × Nat
  | 0 => ([], c)
  | k + 1 =>
      let (n, c') := Variable.new_name c
      let (ns, c'') := genNames c' k
      (n :: ns, c'')

/-- Embeds `Variable.__init__(domain=None, name=None)`: a `None` name is
replaced by a fresh auto-generated one (consuming the counter), a `None`
domain by the unbounded `DomainRange()`. (The source also accepts a
Python `range` as domain, converting it with `DomainRange.fromrange`;
that overload is exercised nowhere in the claims and a caller can apply
`DomainRange.fromrange` first.) The extra `idv` argument is the object
identity given to the freshly allocated `Variable`. -/
def Variable.init (domain : Option DomainRange) (name : Option String)
    (varidx : Nat) (idv : Nat) : Expr × Nat :=
  let (n, varidx') := match name with
    | some n => (n, varidx)
    | none => Variable.new_name varidx
  let d := domain.getD DomainRange.unbounded
  (Expr.var idv n d, varidx')

/-- Embeds the `Variables` numpy container: an object-dtype array of the
given shape holding `Variable` instances, kept as the shape together with
the flat row-major element list. -/
structure VariablesArr where
  shape : List Nat
  elems : List Expr

/-- Embeds `Variables.__new__(shape, domain=None, name_prefix=None)`: a
`None` name prefix is replaced by a fresh `Variable.new_name()`; the flat
content is `[Variable(domain, "%s_%d" % (namePrefix, i)) for i in range(len(arr.flat))]`
where the flat length is the product of the shape. Element names are
explicit, so those constructions do not consume the counter; `idBase`
supplies the object identities of the freshly allocated elements. -/
def Variables.new (shape : List Nat) (domain : Option DomainRange)
    (namePrefix : Option String) (varidx : Nat) (idBase : Nat) :
    VariablesArr × Nat :=
  let (pfx, varidx') := match namePrefix with
    | some p => (p, varidx)
    | none => Variable.new_name varidx
  let count := shape.prod
  let elems := (List.range count).map fun i =>
    (Variable.init domain (some (pfx ++ "_" ++ decimalRepr i)) varidx' (idBase + i)).1
  (⟨shape, elems⟩, varidx')

/-- One element of the broadcast in `Variables._call_ufunc` on `np.equal`:
`(a == b)` where `a` is an array element (an `Expression`) and `b` the
integer scalar, i.e. `Expression.__eq__`, whose operand validation cannot
fail on an integer right operand. -/
def broadcastEqElem (e : Expr) (n : Int) : Expr :=
  .node "=" [.inr e, .inl n]

/-- Embeds the `np.equal`/`__call__` branch of `Variables._call_ufunc`
(reached through `Variables.__array_ufunc__` when evaluating
`container == scalar`): `np.broadcast(arr, scalar)` of an object array
with an integer scalar has the array's own shape and yields the pairs
`(element, scalar)` in row-major order; an empty object-dtype result of
that shape is filled with `(a == b)` per position, and
`__array_ufunc__` views the result back as a `Variables` container. -/
def Variables.eqScalarUfunc (a : VariablesArr) (n : Int) : VariablesArr :=
  ⟨a.shape, a.elems.map fun e => broadcastEqElem e n⟩

/-- Message of the `ValueError` in `Solver.add_constraint`. -/
def dupVarMsg : String := "Two variables with the same name in the same model"

/-- Message of the `AttributeError` Python raises when
`Solver.add_constraint` calls `.variables()` on a plain `int`. -/
def intNoVariablesMsg : String := "int object has no attribute variables"

/-- The state of a `Solver`: the ordered constraint list `_conststore`
and the name-to-Variable dict `_variables` (a Python dict keyed by the
string names; kept as an insertion-ordered association list, looked up
by first match — keys are inserted at most once, so this agrees with
dict lookup). -/
structure SolverState where
  conststore : List Expr
  varmap : List (String × Expr)

/-- The empty state built by `Solver.__init__`. -/
def SolverState.empty : SolverState := ⟨[], []⟩

/-- An argument passed to `Solver.add_constraint`: Python `None`, a plain
`int`, a numpy integer scalar, an `Expression`, or a `Variables`
container. (`pyInt` and `npInt` are distinct because the source's guard
`isinstance(c, np.integer)` matches only the latter.) -/
inductive PyObj where
  | none
  | pyInt (n : Int)
  | npInt (n : Int)
  | expr (e : Expr)
  | varsArr (a : VariablesArr)

/-- Embeds the registration loop of `Solver.add_constraint`
(`for v in c.variables(): ...`): each variable is looked up by name; an
absent name is bound to the variable, the same object under its name is
skipped, and a different object under the same name raises the
`ValueError`. The dict mutation is in place, so the loop returns the
partially updated dict together with the raised error, if any. -/
def registerVariables (m : List (String × Expr)) : List Expr → List (String × Expr) × Option PyError
  | [] => (m, none)
  | v :: vs =>
      match m.lookup v.nameOf with
      | none => registerVariables (m ++ [(v.nameOf, v)]) vs
      | some w =>
          if sameObject w v then registerVariables m vs
          else (m, some (.valueError dupVarMsg))

/-- The `Expression` branch of `Solver.add_constraint`: register every
variable of the tree, then (only if no error was raised) append the
constraint to `_conststore`. -/
def addExprConstraint (st : SolverState) (e : Expr) : SolverState × Option PyError :=
  match registerVariables st.varmap e.variables with
  | (m, some err) => ({ st with varmap := m }, some err)
  | (m, none) => (⟨st.conststore ++ [e], m⟩, none)

/-- The `Variables` branch of `Solver.add_constraint`
(`for v in c.flat: self.add_constraint(v)`): the flat elements are all
Expressions, so each recursive call takes the `Expression` branch; an
exception stops the loop and propagates. -/
def addFlatConstraints (st : SolverState) : List Expr → SolverState × Option PyError
  | [] => (st, none)
  | e :: es =>
      match addExprConstraint st e with
      | (st', none) => addFlatConstraints st' es
      | (st', some err) => (st', some err)

/-- Embeds `Solver.add_constraint`. `None` and numpy integer scalars are
ignored; a `Variables` container is registered element by element; a
plain Python `int` passes the `isinstance(c, np.integer)` guard
unscathed and then crashes on `c.variables()` with an `AttributeError`;
an `Expression` has its variables registered and is appended. -/
def Solver.add_constraint (st : SolverState) (c : PyObj) : SolverState × Option PyError :=
  match c with
  | .none => (st, none)
  | .npInt _ => (st, none)
  | .pyInt _ => (st, some (.attributeError intNoVariablesMsg))
  | .varsArr a => addFlatConstraints st a.elems
  | .expr e => addExprConstraint st e

/-- A backend (pulp) object built during lowering: an `LpVariable`
(integer category, with optional inclusive lower and upper bounds), or
an affine/constraint combination produced by the backend's overloaded
`+` and `==`. -/
inductive LpExpr where
  | lpvar (name : String) (low : Option Int) (up : Option Int)
  | const (n : Int)
  | addE (a b : LpExpr)
  | eqE (a b : LpExpr)
deriving DecidableEq, Repr

/-- A value returned by `SolverPulp._convert_constraint`: a plain Python
integer (returned as itself), a backend object, a Python bool (what
`int == int` evaluates to), or Python `None` (the implicit return when
the node's op is neither "+" nor "="). -/
inductive LpVal where
  | intv (n : Int)
  | lp (e : LpExpr)
  | boolv (b : Bool)
  | nonev
deriving DecidableEq, Repr

/-- `lpexpr[0] + lpexpr[1]` on lowered operands: two plain integers add as
Python integers; an integer combined with a backend object becomes a
constant term of an affine expression (pulp's `__add__`/`__radd__`); any
other operand (`None` or a bool) makes the addition raise a `TypeError`. -/
def lpAdd : LpVal → LpVal → Except PyError LpVal
  | .intv a, .intv b => .ok (.intv (a + b))
  | .intv a, .lp e => .ok (.lp (.addE (.const a) e))
  | .lp e, .intv b => .ok (.lp (.addE e (.const b)))
  | .lp a, .lp b => .ok (.lp (.addE a b))
  | _, _ => .error (.typeError "unsupported operand types for +")

/-- `lpexpr[0] == lpexpr[1]` on lowered operands: two plain integers
compare as Python integers, yielding a bool; a backend object combined
with an integer or another backend object builds the backend's equality
constraint; comparing with `None` falls back to Python identity and
yields `False`. -/
def lpEq : LpVal → LpVal → Except PyError LpVal
  | .intv a, .intv b => .ok (.boolv (a == b))
  | .intv a, .lp e => .ok (.lp (.eqE (.const a) e))
  | .lp e, .intv b => .ok (.lp (.eqE e (.const b)))
  | .lp a, .lp b => .ok (.lp (.eqE a b))
  | .nonev, _ => .ok (.boolv false)
  | _, .nonev => .ok (.boolv false)
  | _, _ => .error (.typeError "unsupported operand types for ==")

/-- Embeds `SolverPulp._add_lpvar`: the `_lpvars` cache (threaded
explicitly) is keyed by variable name; on a miss,
`pulp.LpVariable(v.name, v.domain.min, v.domain.max - 1, pulp.LpInteger)`
is created and cached — note the exclusive `max` decremented by one, and
that `None - 1` on an unbounded domain raises a `TypeError` before pulp
is even called (`None` as the lower bound is passed through, pulp treats
it as minus infinity). -/
def SolverPulp.addLpvar (lpvars : List (String × LpExpr)) (name : String)
    (domain : DomainRange) : Except PyError (LpExpr × List (String × LpExpr)) :=
  match lpvars.lookup name with
  | some lv => .ok (lv, lpvars)
  | none =>
      match domain.max with
      | none => .error (.typeError "unsupported operand type for - : NoneType and int")
      | some mx =>
          let lv := LpExpr.lpvar name domain.min (some (mx - 1))
          .ok (lv, lpvars ++ [(name, lv)])

mutual
/-- Embeds `SolverPulp._convert_constraint` on an `Expression` argument:
a `Variable` lowers to its memoized backend variable; any other node
first lowers all of its operands in order
(`[self._convert_constraint(v) for v in c.values]`) and then combines
the first two with the backend's `+` or `==` according to the op; an op
other than "+" and "=" falls off the end of the function and returns
Python `None`. A node with fewer than two operands would raise an
`IndexError` on `lpexpr[1]`; no such node is buildable through the
exposed operators, and the embedding maps it to `None` as well. -/
def SolverPulp.convertConstraint (lpvars : List (String × LpExpr)) :
    Expr → Except PyError (LpVal × List (String × LpExpr))
  | .var _ name dom => do
      let (lv, lpvars') ← SolverPulp.addLpvar lpvars name dom
      return (.lp lv, lpvars')
  | .node op vs => do
      let (ls, lpvars') ← SolverPulp.convertOperands lpvars vs
      match ls with
      | a :: b :: _ =>
          if op = "+" then do
            let r ← lpAdd a b
            return (r, lpvars')
          else if op = "=" then do
            let r ← lpEq a b
            return (r, lpvars')
          else
            return (.nonev, lpvars')
      | _ => return (.nonev, lpvars')

/-- The `isinstance(c, (np.integer, int))` branch of
`_convert_constraint`: an integer operand lowers to itself. -/
def SolverPulp.convertOperand (lpvars : List (String × LpExpr)) :
    Int ⊕ Expr → Except PyError (LpVal × List (String × LpExpr))
  | .inl n => .ok (.intv n, lpvars)
  | .inr e => SolverPulp.convertConstraint lpvars e

/-- The operand list comprehension of `_convert_constraint`, lowering
every operand left to right while threading the `_lpvars` cache. -/
def SolverPulp.convertOperands (lpvars : List (String × LpExpr)) :
    List (Int ⊕ Expr) → Except PyError (List LpVal × List (String × LpExpr))
  | [] => .ok ([], lpvars)
  | v :: vs => do
      let (l, lpvars') ← SolverPulp.convertOperand lpvars v
      let (ls, lpvars'') ← SolverPulp.convertOperands lpvars' vs
      return (l :: ls, lpvars'')
end

/-! ## Claim theorems -/

/-- C1: for Expression operands, the overloaded infix operators build new
symbolic nodes instead of evaluating: `e1 + e2` (and the reflected
`n + e` with an integer left operand) returns a 2-ary "+"-node holding
the two operands in order, and `e1 == e2` returns a 2-ary "="-node
(an `Expr`, never a boolean). The operators are pure: the result is a
fresh node whose operand slots hold `e1` and `e2` themselves, unchanged —
no existing node is mutated. -/
theorem claim1_operators_build_nodes (e1 e2 : Expr) (n : Int) :
    Expression.addOp e1 (.vexpr e2) = .ok (.node "+" [.inr e1, .inr e2])
    ∧ Expression.raddOp e2 (.vint n) = .ok (.node "+" [.inl n, .inr e2])
    ∧ Expression.eqOp e1 (.vexpr e2) = .ok (.node "=" [.inr e1, .inr e2]) :=
  ⟨rfl, rfl, rfl⟩

/-- C5: `(e1 + e2).variables()` is the concatenation of `e1.variables()`
and `e2.variables()` in order (duplicates retained), and a Variable's own
`variables()` is the singleton list of itself. -/
theorem claim5_variables_concat (e1 e2 : Expr) :
    Expression.addOp e1 (.vexpr e2) = .ok (.node "+" [.inr e1, .inr e2])
    ∧ (Expr.node "+" [.inr e1, .inr e2]).variables = e1.variables ++ e2.variables
    ∧ ∀ (i : Nat) (s : String) (d : DomainRange),
        (Expr.var i s d).variables = [Expr.var i s d] := by
  refine ⟨rfl, ?_, fun i s d => rfl⟩
  show varsOfOperands [.inr e1, .inr e2] = e1.variables ++ e2.variables
  simp [varsOfOperands]

/-- C6: for `min < max`, `DomainRange.fromrange (range(min, max))` yields a
Domain whose `min`/`max` bounds are exactly the range's bounds, and any
range whose step is not 1 fails with the `AssertionError` of the
`r.step == 1` assert (the error the spec calls UnsupportedDomainError). -/
theorem claim6_fromrange :
    (∀ mn mx : Int, mn < mx →
        DomainRange.fromrange ⟨mn, mx, 1⟩ = .ok ⟨some mn, some mx⟩)
    ∧ ∀ r : PyRange, r.step ≠ 1 →
        DomainRange.fromrange r = .error (.assertionError sparseRangeMsg) := by
  constructor
  · intro mn mx _
    simp [DomainRange.fromrange]
  · intro r h
    simp [DomainRange.fromrange, h]

/-- Witness for C6 at `range(2, 5)` and `range(2, 5, 2)`. -/
theorem claim6_fromrange_witness :
    DomainRange.fromrange ⟨2, 5, 1⟩ = .ok ⟨some 2, some 5⟩
    ∧ DomainRange.fromrange ⟨2, 5, 2⟩ = .error (.assertionError sparseRangeMsg) :=
  ⟨claim6_fromrange.1 2 5 (by decide), claim6_fromrange.2 ⟨2, 5, 2⟩ (by decide)⟩

/-- C3 (code bug): `add_constraint` ignores `None` and numpy integer
scalars, but a bare Python `int` slips past the `isinstance(c, np.integer)`
guard and crashes on `c.variables()` with an `AttributeError` instead of
being a no-op — contradicting the spec's "ignores None and bare integer
literals", whose intent is corroborated by `_convert_constraint`'s own
`isinstance(c, (np.integer, int))` treating both kinds as constants. -/
theorem claim3_bare_int_crashes (st : SolverState) (n : Int) :
    Solver.add_constraint st .none = (st, none)
    ∧ Solver.add_constraint st (.npInt n) = (st, none)
    ∧ Solver.add_constraint st (.pyInt n) = (st, some (.attributeError intNoVariablesMsg)) :=
  ⟨rfl, rfl, rfl⟩

/-- The rendering of the offending operand type in the examples below
(Python renders it with quotes around str). -/
def strOperandDescr : String := "<class str>"

/-- Does a construction attempt fail with a Python `TypeError`? -/
def resultIsTypeError : Except PyError Expr → Bool
  | .error (.typeError _) => true
  | _ => false

/-- C7 counterexample: building `x + "foo"` fails with an
`AssertionError` (the `assert` in `Expression.__init__`), not with a
`TypeError`-class error as the claim states; the message is the assert's
"Can only build expressions out of expressions or integers" text. -/
theorem claim7_counterexample :
    Expression.addOp (Expr.var 0 "x" DomainRange.unbounded) (.other strOperandDescr)
        = .error (.assertionError (badOperandMsg ++ strOperandDescr))
    ∧ resultIsTypeError
        (Expression.addOp (Expr.var 0 "x" DomainRange.unbounded) (.other strOperandDescr))
        = false :=
  ⟨rfl, rfl⟩

/-- Is an operator operand neither an `Expression` nor an integer? -/
def PyVal.isOther : PyVal → Bool
  | .other _ => true
  | _ => false

/-- The validation loop of `Expression.__init__` raises on the first
operand that is neither an Expression nor an integer. -/
theorem checkOperands_find (vs : List PyVal) (d : String)
    (h : vs.find? PyVal.isOther = some (.other d)) :
    checkOperands vs = some (.assertionError (badOperandMsg ++ d)) := by
  induction vs with
  | nil => simp [List.find?] at h
  | cons v vs ih =>
      cases v with
      | other d0 =>
          simp [List.find?, PyVal.isOther] at h
          subst h
          rfl
      | vint n =>
          rw [checkOperands]
          rw [List.find?] at h
          simp only [PyVal.isOther] at h
          exact ih h
      | vexpr e =>
          rw [checkOperands]
          rw [List.find?] at h
          simp only [PyVal.isOther] at h
          exact ih h

/-- C7 (amended): constructing an Expression validates every operand at
construction time; if any operand is neither an Expression nor an
integer (the first such operand rendered by `d`), construction fails
immediately — at tree-build time, never deferred to lowering — with the
`AssertionError` of the constructor's `assert`, whose message says
expressions can only be built out of expressions or integers. -/
theorem claim7_operand_validation (op : String) (vs : List PyVal) (d : String)
    (h : vs.find? PyVal.isOther = some (.other d)) :
    mkExpression op vs = .error (.assertionError (badOperandMsg ++ d)) := by
  simp [mkExpression, checkOperands_find vs d h]

/-- Witness for C7 (amended): `Expression('+', x, "foo")`. -/
theorem claim7_operand_validation_witness :
    [PyVal.vexpr (Expr.var 0 "x" DomainRange.unbounded),
        PyVal.other strOperandDescr].find? PyVal.isOther = some (.other strOperandDescr)
    ∧ mkExpression "+"
        [PyVal.vexpr (Expr.var 0 "x" DomainRange.unbounded), PyVal.other strOperandDescr]
        = .error (.assertionError (badOperandMsg ++ strOperandDescr)) :=
  ⟨rfl, claim7_operand_validation "+" _ strOperandDescr rfl⟩

/-- Decodes a decimal digit character back to its value (proof
infrastructure for the injectivity of `decimalRepr`). -/
def charVal (c : Char) : Nat := c.toNat - 48

/-- Folds a digit string back into the number it denotes, starting from
accumulator `a`. -/
def decodeDigits (l : List Char) (a : Nat) : Nat :=
  l.foldl (fun a c => 10 * a + charVal c) a

theorem charVal_digitChar : ∀ n < 10, charVal (Nat.digitChar n) = n := by decide

theorem decodeDigits_toDecimalAux :
    ∀ fuel n a, n < fuel →
      decodeDigits (toDecimalAux fuel n) a
        = a * 10 ^ (toDecimalAux fuel n).length + n := by
  intro fuel
  induction fuel with
  | zero => omega
  | succ fuel ih =>
      intro n a hn
      by_cases h10 : n < 10
      · rw [toDecimalAux, if_pos h10]
        simp [decodeDigits, charVal_digitChar n h10]
        ring
      · rw [toDecimalAux, if_neg h10]
        have hdiv : n / 10 < n := Nat.div_lt_self (by omega) (by omega)
        have hmod : charVal (Nat.digitChar (n % 10)) = n % 10 :=
          charVal_digitChar (n % 10) (Nat.mod_lt n (by omega))
        have hrec := ih (n / 10) a (by omega)
        have hsplit : decodeDigits (toDecimalAux fuel (n / 10) ++ [Nat.digitChar (n % 10)]) a
            = 10 * decodeDigits (toDecimalAux fuel (n / 10)) a + n % 10 := by
          simp [decodeDigits, List.foldl_append, hmod]
        rw [hsplit, hrec, List.length_append, List.length_singleton, pow_succ]
        generalize (10 : Nat) ^ (toDecimalAux fuel (n / 10)).length = p
        have hdm := Nat.div_add_mod n 10
        have hflip : a * (p * 10) = 10 * (a * p) := by ring
        omega

theorem decimalRepr_injective : Function.Injective decimalRepr := by
  intro m n h
  have hdata : toDecimalAux (m + 1) m = toDecimalAux (n + 1) n := congrArg String.data h
  have hm := decodeDigits_toDecimalAux (m + 1) m 0 (by omega)
  have hn := decodeDigits_toDecimalAux (n + 1) n 0 (by omega)
  rw [hdata] at hm
  omega

/-- A fixed-text left factor cancels in string concatenation. -/
theorem string_append_left_cancel (s t u : String) (h : s ++ t = s ++ u) : t = u := by
  have hd : s.data ++ t.data = s.data ++ u.data := by
    have := congrArg String.data h
    simpa [String.data_append] using this
  cases t
  cases u
  exact congrArg String.mk (List.append_cancel_left hd)

/-- Closed form of `k` successive `Variable.new_name` calls from counter `c`. -/
theorem genNames_eq (c k : Nat) :
    genNames c k = ((List.range k).map (fun i => "var_" ++ decimalRepr (c + i)), c + k) := by
  induction k generalizing c with
  | zero => simp [genNames]
  | succ k ih =>
      rw [genNames, Variable.new_name]
      simp only [ih (c + 1), List.range_succ_eq_map, List.map_cons, List.map_map]
      have harg : ∀ i : Nat, c + 1 + i = c + (i + 1) := by omega
      simp [Function.comp, harg, Nat.succ_eq_add_one]

/-- C8: auto-generated variable names are pairwise distinct within a
process: `Variable.new_name` returns the fixed prefix "var_" followed by
the current value of the class-wide counter and increments the counter,
and any sequence of `k` successive calls yields pairwise distinct names. -/
theorem claim8_unique_names (c k : Nat) :
    Variable.new_name c = ("var_" ++ decimalRepr c, c + 1)
    ∧ ((genNames c k).1).Pairwise (· ≠ ·) := by
  refine ⟨rfl, ?_⟩
  rw [genNames_eq]
  rw [List.pairwise_map]
  refine (List.pairwise_lt_range k).imp ?_
  intro i j hij heq
  have := decimalRepr_injective (string_append_left_cancel _ _ _ heq)
  omega

/-- C2: for a `Variables` container of shape (2, 2) with default
unbounded domain (and auto-generated name prefix, counter value
`varidx`), evaluating `v == 0` through the ufunc override returns an
object-dtype container of the same shape (2, 2) whose four elements are
`Expression` nodes with op "=" over the corresponding element and 0 —
not booleans — each rendering as "(element name) = 0". -/
theorem claim2_broadcast_equality (varidx idBase : Nat) :
    (Variables.eqScalarUfunc (Variables.new [2, 2] none none varidx idBase).1 0).shape = [2, 2]
    ∧ (Variables.eqScalarUfunc (Variables.new [2, 2] none none varidx idBase).1 0).elems
        = [Expr.node "=" [.inr (.var idBase ("var_" ++ decimalRepr varidx ++ "_0")
              DomainRange.unbounded), .inl 0],
           Expr.node "=" [.inr (.var (idBase + 1) ("var_" ++ decimalRepr varidx ++ "_1")
              DomainRange.unbounded), .inl 0],
           Expr.node "=" [.inr (.var (idBase + 2) ("var_" ++ decimalRepr varidx ++ "_2")
              DomainRange.unbounded), .inl 0],
           Expr.node "=" [.inr (.var (idBase + 3) ("var_" ++ decimalRepr varidx ++ "_3")
              DomainRange.unbounded), .inl 0]]
    ∧ (Variables.eqScalarUfunc (Variables.new [2, 2] none none varidx idBase).1 0).elems.map
          Expr.strOpt
        = [some ("var_" ++ decimalRepr varidx ++ "_0" ++ " = 0"),
           some ("var_" ++ decimalRepr varidx ++ "_1" ++ " = 0"),
           some ("var_" ++ decimalRepr varidx ++ "_2" ++ " = 0"),
           some ("var_" ++ decimalRepr varidx ++ "_3" ++ " = 0")] := by
  refine ⟨rfl, ?_, ?_⟩
  · simp [Variables.eqScalarUfunc, Variables.new, broadcastEqElem, Variable.init,
      Variable.new_name, List.range, List.range.loop, String.append_assoc]
    refine ⟨?_, ?_, ?_, ?_⟩ <;> rfl
  · simp [Variables.eqScalarUfunc, Variables.new, broadcastEqElem, Variable.init,
      Expr.strOpt, operandStr, List.range, List.range.loop, String.append_assoc]
    refine ⟨?_, ?_, ?_, ?_⟩ <;> rfl

/-- Looking a name up after appending one fresh entry to the dict: an
existing binding wins; otherwise the new entry answers exactly for its key. -/
theorem lookup_append_singleton (m : List (String × Expr)) (k n : String) (x : Expr) :
    (m ++ [(k, x)]).lookup n =
      match m.lookup n with
      | some w => some w
      | none => if n == k then some x else none := by
  induction m with
  | nil =>
      simp only [List.nil_append]
      cases h : (n == k) <;> simp [List.lookup, h]
  | cons p m ih =>
      obtain ⟨k0, x0⟩ := p
      cases h : (n == k0) <;> simp [List.lookup, h, ih]

/-- If some variable of the list is already bound, in the starting dict,
to a different object, the registration loop raises the duplicate-name
`ValueError` (no other outcome is possible: every variable bound to a
different object stays reachable, names being inserted only when absent). -/
theorem registerVariables_dup (vs : List Expr) :
    ∀ m, (∃ v ∈ vs, ∃ w, m.lookup v.nameOf = some w ∧ sameObject w v = false) →
      (registerVariables m vs).2 = some (.valueError dupVarMsg) := by
  induction vs with
  | nil =>
      intro m h
      simp at h
  | cons v vs ih =>
      intro m h
      rw [registerVariables]
      cases hlk : m.lookup v.nameOf with
      | none =>
          obtain ⟨v0, hv0mem, w, hw, hso⟩ := h
          rcases List.mem_cons.mp hv0mem with rfl | hmem
          · rw [hlk] at hw
            cases hw
          · have hw' : (m ++ [(v.nameOf, v)]).lookup v0.nameOf = some w := by
              rw [lookup_append_singleton, hw]
            exact ih (m ++ [(v.nameOf, v)]) ⟨v0, hmem, w, hw', hso⟩
      | some w0 =>
          cases hso0 : sameObject w0 v with
          | true =>
              obtain ⟨v0, hv0mem, w, hw, hso⟩ := h
              rcases List.mem_cons.mp hv0mem with rfl | hmem
              · rw [hlk] at hw
                obtain rfl : w0 = w := Option.some.inj hw
                rw [hso0] at hso
                cases hso
              · simp only [hso0, if_true]
                exact ih m ⟨v0, hmem, w, hw, hso⟩
          | false => simp [hso0]

/-- If every variable of the list is compatible with the starting dict
(any existing binding of its name is the object itself) and the list is
internally consistent (two entries sharing a name are the same object),
the registration loop raises nothing. -/
theorem registerVariables_ok (vs : List Expr) :
    ∀ m, (∀ v ∈ vs, ∀ w, m.lookup v.nameOf = some w → sameObject w v = true) →
      vs.Pairwise (fun a b => a.nameOf = b.nameOf → sameObject a b = true) →
      (registerVariables m vs).2 = none := by
  induction vs with
  | nil =>
      intro m _ _
      rfl
  | cons v vs ih =>
      intro m hcomp hpw
      have hpw' := List.pairwise_cons.mp hpw
      rw [registerVariables]
      cases hlk : m.lookup v.nameOf with
      | none =>
          apply ih
          · intro v0 hv0 w hw
            rw [lookup_append_singleton] at hw
            cases hm : m.lookup v0.nameOf with
            | some w1 =>
                rw [hm] at hw
                exact Option.some.inj hw ▸ hcomp v0 (List.mem_cons_of_mem v hv0) w1 hm
            | none =>
                rw [hm] at hw
                by_cases heq : v0.nameOf = v.nameOf
                · rw [if_pos (by simpa using heq)] at hw
                  exact Option.some.inj hw ▸ hpw'.1 v0 hv0 heq.symm
                · rw [if_neg (by simpa using heq)] at hw
                  cases hw
          · exact hpw'.2
      | some w0 =>
          have hs := hcomp v (List.mem_cons_self v vs) w0 hlk
          simp only [hs, if_true]
          exact ih m (fun v0 hv0 w hw => hcomp v0 (List.mem_cons_of_mem v hv0) w hw) hpw'.2

/-- C4: registering a constraint whose tree contains a Variable whose
name is already mapped, in the Solver, to a different Variable object
raises the duplicate-name `ValueError` (the error the spec calls
DuplicateVariableNameError); registering a constraint whose variables
are each either fresh or the very objects already registered under their
names (e.g. the same Variable appearing in two constraints) raises no
error and appends the constraint. -/
theorem claim4_duplicate_names (st : SolverState) (e : Expr) :
    ((∃ v ∈ e.variables, ∃ w, st.varmap.lookup v.nameOf = some w ∧ sameObject w v = false) →
        (Solver.add_constraint st (.expr e)).2 = some (.valueError dupVarMsg))
    ∧ ((∀ v ∈ e.variables, ∀ w, st.varmap.lookup v.nameOf = some w → sameObject w v = true) →
        e.variables.Pairwise (fun a b => a.nameOf = b.nameOf → sameObject a b = true) →
        (Solver.add_constraint st (.expr e)).2 = none
          ∧ (Solver.add_constraint st (.expr e)).1.conststore = st.conststore ++ [e]) := by
  constructor
  · intro h
    have h2 := registerVariables_dup e.variables st.varmap h
    rcases hreg : registerVariables st.varmap e.variables with ⟨m, err⟩
    rw [hreg] at h2
    simp only at h2
    subst h2
    simp [Solver.add_constraint, addExprConstraint, hreg]
  · intro hcomp hpw
    have h2 := registerVariables_ok e.variables st.varmap hcomp hpw
    rcases hreg : registerVariables st.varmap e.variables with ⟨m, err⟩
    rw [hreg] at h2
    simp only at h2
    subst h2
    simp [Solver.add_constraint, addExprConstraint, hreg]

/-- Witness for C4: on a Solver whose map holds `x ↦ (Variable id 0)`,
registering the distinct object `Variable id 1` named "x" raises; adding
a constraint made of the registered object itself succeeds and appends. -/
theorem claim4_witness :
    (Solver.add_constraint ⟨[], [("x", Expr.var 0 "x" DomainRange.unbounded)]⟩
        (.expr (Expr.var 1 "x" DomainRange.unbounded))).2 = some (.valueError dupVarMsg)
    ∧ (Solver.add_constraint ⟨[], [("x", Expr.var 0 "x" DomainRange.unbounded)]⟩
          (.expr (Expr.var 0 "x" DomainRange.unbounded))).2 = none
    ∧ (Solver.add_constraint ⟨[], [("x", Expr.var 0 "x" DomainRange.unbounded)]⟩
          (.expr (Expr.var 0 "x" DomainRange.unbounded))).1.conststore
        = [] ++ [Expr.var 0 "x" DomainRange.unbounded] := by
  refine ⟨?_, ?_, ?_⟩
  · exact (claim4_duplicate_names _ _).1
      ⟨Expr.var 1 "x" DomainRange.unbounded, by simp [Expr.variables],
        Expr.var 0 "x" DomainRange.unbounded, rfl, rfl⟩
  · exact ((claim4_duplicate_names _ _).2
      (fun v hv w hw => by
        have hv' : v = Expr.var 0 "x" DomainRange.unbounded := by
          simpa [Expr.variables] using hv
        subst hv'
        have hw' : w = Expr.var 0 "x" DomainRange.unbounded := by
          simpa [List.lookup, Expr.nameOf] using hw.symm
        subst hw'
        rfl)
      (by simp [Expr.variables])).1
  · exact ((claim4_duplicate_names _ _).2
      (fun v hv w hw => by
        have hv' : v = Expr.var 0 "x" DomainRange.unbounded := by
          simpa [Expr.variables] using hv
        subst hv'
        have hw' : w = Expr.var 0 "x" DomainRange.unbounded := by
          simpa [List.lookup, Expr.nameOf] using hw.symm
        subst hw'
        rfl)
      (by simp [Expr.variables])).2

/-- The registration loop over a split list: the prefix runs first, and
the rest runs only if the prefix raised nothing. -/
theorem registerVariables_append (pre rest : List Expr) :
    ∀ m, registerVariables m (pre ++ rest) =
      match registerVariables m pre with
      | (m1, none) => registerVariables m1 rest
      | (m1, some err) => (m1, some err) := by
  induction pre with
  | nil =>
      intro m
      rfl
  | cons v pre ih =>
      intro m
      rw [List.cons_append, registerVariables, registerVariables]
      cases hlk : m.lookup v.nameOf with
      | none => exact ih (m ++ [(v.nameOf, v)])
      | some w =>
          cases hso : sameObject w v with
          | true => simpa [hso] using ih m
          | false => simp [hso]

/-- C10: `add_constraint` is not atomic on failure. If the variable list
of constraint `e` splits as `pre ++ v :: post`, the prefix registers
without error (yielding map `m1`), and `v`'s name is bound in `m1` to a
different object `w`, then the call raises the duplicate-name error and
leaves the Solver with map `m1` — every variable visited before the
offending one stays registered — while the constraint list is unchanged;
and in general, whenever `add_constraint` on an Expression raises, the
constraint is never appended (the append runs only after every variable
registered successfully). -/
theorem claim10_nonatomic_failure (st : SolverState) (e : Expr) :
    (∀ pre v post m1 w,
        e.variables = pre ++ v :: post →
        registerVariables st.varmap pre = (m1, none) →
        m1.lookup v.nameOf = some w →
        sameObject w v = false →
        Solver.add_constraint st (.expr e)
          = (⟨st.conststore, m1⟩, some (.valueError dupVarMsg)))
    ∧ ∀ st' err, Solver.add_constraint st (.expr e) = (st', some err) →
        st'.conststore = st.conststore := by
  constructor
  · intro pre v post m1 w hsplit hpre hlk hso
    have hreg : registerVariables st.varmap e.variables
        = (m1, some (.valueError dupVarMsg)) := by
      rw [hsplit, registerVariables_append, hpre]
      show registerVariables m1 (v :: post) = (m1, some (.valueError dupVarMsg))
      rw [registerVariables, hlk]
      show (if sameObject w v = true then registerVariables m1 post
          else (m1, some (.valueError dupVarMsg))) = (m1, some (.valueError dupVarMsg))
      rw [if_neg (by simp [hso])]
    simp [Solver.add_constraint, addExprConstraint, hreg]
  · intro st' err h
    rcases hreg : registerVariables st.varmap e.variables with ⟨m, e0⟩
    cases e0 with
    | none =>
        simp [Solver.add_constraint, addExprConstraint, hreg] at h
    | some e1 =>
        simp only [Solver.add_constraint, addExprConstraint, hreg] at h
        have h1 := congrArg Prod.fst h
        simp only at h1
        rw [← h1]

/-- Witness for C10: on a Solver whose map holds `y ↦ (Variable id 9)`,
the constraint `x + y` with fresh objects `x` (id 1) and `y` (id 2)
registers `x`, then fails on `y`; the final state keeps `x` and `y ↦ 9`
in the map and the constraint list stays empty. -/
theorem claim10_nonatomic_failure_witness :
    Solver.add_constraint ⟨[], [("y", Expr.var 9 "y" DomainRange.unbounded)]⟩
        (.expr (Expr.node "+" [.inr (Expr.var 1 "x" DomainRange.unbounded),
          .inr (Expr.var 2 "y" DomainRange.unbounded)]))
      = (⟨[], [("y", Expr.var 9 "y" DomainRange.unbounded),
          ("x", Expr.var 1 "x" DomainRange.unbounded)]⟩,
         some (.valueError dupVarMsg)) :=
  (claim10_nonatomic_failure _ _).1
    [Expr.var 1 "x" DomainRange.unbounded]
    (Expr.var 2 "y" DomainRange.unbounded)
    []
    [("y", Expr.var 9 "y" DomainRange.unbounded),
      ("x", Expr.var 1 "x" DomainRange.unbounded)]
    (Expr.var 9 "y" DomainRange.unbounded)
    (by simp [Expr.variables, varsOfOperands])
    rfl
    rfl
    rfl

/-- C9: lowering is a recursive function of the constraint tree. An
integer literal lowers to itself; a Variable lowers to a backend integer
variable memoized by name in the `_lpvars` cache, created on a miss with
inclusive lower bound `domain.min` and inclusive upper bound
`domain.max - 1` (the exclusive max decremented by one); a "+" node
lowers to the backend's additive combination of its two lowered
operands; a "=" node lowers to the backend's equality-constraint
combinator of its two lowered operands. -/
theorem claim9_recursive_lowering :
    (∀ (m : List (String × LpExpr)) (n : Int),
        SolverPulp.convertOperand m (.inl n) = .ok (.intv n, m))
    ∧ (∀ (m : List (String × LpExpr)) (i : Nat) (name : String) (dom : DomainRange)
          (mx : Int), m.lookup name = none → dom.max = some mx →
        SolverPulp.convertConstraint m (.var i name dom)
          = .ok (.lp (.lpvar name dom.min (some (mx - 1))),
              m ++ [(name, .lpvar name dom.min (some (mx - 1)))]))
    ∧ (∀ (m : List (String × LpExpr)) (i : Nat) (name : String) (dom : DomainRange)
          (lv : LpExpr), m.lookup name = some lv →
        SolverPulp.convertConstraint m (.var i name dom) = .ok (.lp lv, m))
    ∧ (∀ (m m1 m2 : List (String × LpExpr)) (a b : Int ⊕ Expr) (x y : LpExpr),
        SolverPulp.convertOperand m a = .ok (.lp x, m1) →
        SolverPulp.convertOperand m1 b = .ok (.lp y, m2) →
        SolverPulp.convertConstraint m (.node "+" [a, b]) = .ok (.lp (.addE x y), m2))
    ∧ (∀ (m m1 m2 : List (String × LpExpr)) (a b : Int ⊕ Expr) (x y : LpExpr),
        SolverPulp.convertOperand m a = .ok (.lp x, m1) →
        SolverPulp.convertOperand m1 b = .ok (.lp y, m2) →
        SolverPulp.convertConstraint m (.node "=" [a, b]) = .ok (.lp (.eqE x y), m2)) := by
  refine ⟨fun m n => rfl, ?_, ?_, ?_, ?_⟩
  · intro m i name dom mx hmiss hmax
    simp [SolverPulp.convertConstraint, SolverPulp.addLpvar, hmiss, hmax]
  · intro m i name dom lv hhit
    simp [SolverPulp.convertConstraint, SolverPulp.addLpvar, hhit]
  · intro m m1 m2 a b x y ha hb
    simp [SolverPulp.convertConstraint, SolverPulp.convertOperands, ha, hb, lpAdd,
      Bind.bind, Except.bind, Functor.map, Except.map, Pure.pure, Except.pure]
  · intro m m1 m2 a b x y ha hb
    simp [SolverPulp.convertConstraint, SolverPulp.convertOperands, ha, hb, lpEq,
      Bind.bind, Except.bind, Functor.map, Except.map, Pure.pure, Except.pure]

/-- Witness for C9: lowering `3`, the variable `a` with domain `[0, 2)`
(twice, hitting the memo the second time), and the nodes `a + b` and
`a = b`. -/
theorem claim9_recursive_lowering_witness :
    SolverPulp.convertOperand [] (.inl 3) = .ok (.intv 3, [])
    ∧ SolverPulp.convertConstraint [] (.var 0 "a" ⟨some 0, some 2⟩)
        = .ok (.lp (.lpvar "a" (some 0) (some 1)), [("a", .lpvar "a" (some 0) (some 1))])
    ∧ SolverPulp.convertConstraint [("a", .lpvar "a" (some 0) (some 1))]
          (.var 0 "a" ⟨some 0, some 2⟩)
        = .ok (.lp (.lpvar "a" (some 0) (some 1)), [("a", .lpvar "a" (some 0) (some 1))])
    ∧ SolverPulp.convertConstraint []
          (.node "+" [.inr (.var 0 "a" ⟨some 0, some 2⟩), .inr (.var 1 "b" ⟨some 0, some 2⟩)])
        = .ok (.lp (.addE (.lpvar "a" (some 0) (some 1)) (.lpvar "b" (some 0) (some 1))),
            [("a", .lpvar "a" (some 0) (some 1)), ("b", .lpvar "b" (some 0) (some 1))])
    ∧ SolverPulp.convertConstraint []
          (.node "=" [.inr (.var 0 "a" ⟨some 0, some 2⟩), .inr (.var 1 "b" ⟨some 0, some 2⟩)])
        = .ok (.lp (.eqE (.lpvar "a" (some 0) (some 1)) (.lpvar "b" (some 0) (some 1))),
            [("a", .lpvar "a" (some 0) (some 1)), ("b", .lpvar "b" (some 0) (some 1))]) :=
  ⟨claim9_recursive_lowering.1 [] 3,
   claim9_recursive_lowering.2.1 [] 0 "a" ⟨some 0, some 2⟩ 2 rfl rfl,
   claim9_recursive_lowering.2.2.1 [("a", .lpvar "a" (some 0) (some 1))] 0 "a"
     ⟨some 0, some 2⟩ (.lpvar "a" (some 0) (some 1)) rfl,
   claim9_recursive_lowering.2.2.2.1 [] [("a", .lpvar "a" (some 0) (some 1))]
     [("a", .lpvar "a" (some 0) (some 1)), ("b", .lpvar "b" (some 0) (some 1))]
     (.inr (.var 0 "a" ⟨some 0, some 2⟩)) (.inr (.var 1 "b" ⟨some 0, some 2⟩))
     (.lpvar "a" (some 0) (some 1)) (.lpvar "b" (some 0) (some 1)) rfl rfl,
   claim9_recursive_lowering.2.2.2.2 [] [("a", .lpvar "a" (some 0) (some 1))]
     [("a", .lpvar "a" (some 0) (some 1)), ("b", .lpvar "b" (some 0) (some 1))]
     (.inr (.var 0 "a" ⟨some 0, some 2⟩)) (.inr (.var 1 "b" ⟨some 0, some 2⟩))
     (.lpvar "a" (some 0) (some 1)) (.lpvar "b" (some 0) (some 1)) rfl rfl⟩
